import Mathlib

/-!
# Verification of the cricket statistics core

Shallow embedding of the data model and core operations of the repository
(`data_processor.py`, `player_stats.py`, `team_analyzer.py`,
`venue_analyzer.py`), together with proofs of the specification's claims.

Python values relevant to numeric coercion are embedded as `PyVal`; a Python
`float` value is a finite IEEE-754 binary64 value, hence an exact rational;
`float(s)` on a string is the exact decimal value correctly rounded to the
binary64 grid (round to nearest, ties to even), with overflow to infinity;
`int(x)` on a float is truncation toward zero; Python `round(x, n)` is
round-half-to-even at `n` decimal places; Python `//` and `%` on integers
are `Int.fdiv` / `Int.fmod`.
-/

namespace Cricket

/-- Embedding of the Python values that can appear in numeric delivery
fields: `None`, booleans, ints, finite floats (a finite binary64 value is an
exact rational), strings, and anything else (`other`: lists, dicts, ...). -/
inductive PyVal where
  | none
  | bool (b : Bool)
  | int (n : Int)
  | float (q : Rat)
  | str (s : String)
  | other
deriving DecidableEq, Repr

/-- Value of a list of decimal digit characters, most significant first. -/
def digitsToNat (l : List Char) : Nat :=
  l.foldl (fun a c => a * 10 + (c.toNat - 48)) 0

/-- Embedding of Python `str.strip()`: remove leading and trailing
whitespace. -/
def pyStrip (s : String) : String :=
  String.mk (((s.toList.dropWhile Char.isWhitespace).reverse.dropWhile Char.isWhitespace).reverse)

/-- Leading-sign split of a decimal literal: the sign factor and the
remaining characters. -/
def splitSign (cs : List Char) : Int × List Char :=
  match cs with
  | c :: r => if c = '-' then (-1, r) else if c = '+' then (1, r) else (1, cs)
  | [] => (1, cs)

/-- The optional exponent suffix of a decimal literal (`e`/`E`, optional
sign, digits), applied to a signed mantissa `mant` with `k` fractional
digits; the result `(n, k)` denotes the exact value `n / 10^k`. -/
def parseExpAfter (sign : Int) (mant : Nat) (k : Nat) (rest : List Char) :
    Option (Int × Nat) :=
  match rest with
  | [] => some (sign * mant, k)
  | c :: er =>
    if c = 'e' ∨ c = 'E' then
      let es := (splitSign er).1
      let ed := (splitSign er).2
      let digs := ed.takeWhile Char.isDigit
      if digs.isEmpty then Option.none
      else if !(ed.dropWhile Char.isDigit).isEmpty then Option.none
      else
        let ev : Int := es * digitsToNat digs
        if 0 ≤ ev then some (sign * (mant * 10 ^ ev.toNat), k)
        else some (sign * mant, k + (-ev).toNat)
    else Option.none

/-- The exact decimal value of a Python float literal, as `(n, k)` denoting
`n / 10^k`: the forms `[+-]?digits[.digits?]?[exp]?` and `[+-]?.digits[exp]?`
with an optional `e`/`E` exponent. `"inf"`/`"nan"` are not parsed: `float()`
accepts them but `int()` then raises, so `_to_int` returns the default
either way; PEP 515 digit-group underscores are not modelled. Anything else
is `Option.none` (`float()` raises `ValueError`, which `_to_int` catches). -/
def parseDecimalParts (cs : List Char) : Option (Int × Nat) :=
  let sign := (splitSign cs).1
  let rest := (splitSign cs).2
  let intPart := rest.takeWhile Char.isDigit
  match rest.dropWhile Char.isDigit with
  | [] => if intPart.isEmpty then Option.none else some (sign * digitsToNat intPart, 0)
  | '.' :: fr =>
    let fracPart := fr.takeWhile Char.isDigit
    if intPart.isEmpty && fracPart.isEmpty then Option.none
    else parseExpAfter sign (digitsToNat intPart * 10 ^ fracPart.length + digitsToNat fracPart)
      fracPart.length (fr.dropWhile Char.isDigit)
  | 'e' :: er =>
    if intPart.isEmpty then Option.none
    else parseExpAfter sign (digitsToNat intPart) 0 ('e' :: er)
  | 'E' :: er =>
    if intPart.isEmpty then Option.none
    else parseExpAfter sign (digitsToNat intPart) 0 ('E' :: er)
  | _ => Option.none

/-- `⌊log₂ n⌋` by fuel recursion (kernel-computable, unlike `Nat.log2`). -/
def log2fuel : Nat → Nat → Nat
  | 0, _ => 0
  | fuel + 1, n => if 2 ≤ n then log2fuel fuel (n / 2) + 1 else 0

/-- `⌊log₂ n⌋` for `n ≥ 1`. -/
def natLog2 (n : Nat) : Nat := log2fuel n n

/-- `⌊log₂ (a/b)⌋` for positive `a`, `b`: scale `a` up by `2^T` with
`2^T > b` so the quotient is at least 1, then use
`⌊log₂ x⌋ = ⌊log₂ ⌊x⌋⌋` for `x ≥ 1`. -/
def ratFloorLog2 (a b : Nat) : Int :=
  let T := natLog2 b + 1
  (natLog2 (a * 2 ^ T / b) : Int) - (T : Int)

/-- Round `N / D` to the nearest natural, ties to even. -/
def rndNE (N D : Nat) : Nat :=
  let q := N / D
  let r := N % D
  if 2 * r < D then q
  else if D < 2 * r then q + 1
  else if q % 2 = 0 then q else q + 1

/-- Round the positive rational `a / b` to the IEEE-754 binary64 grid,
round to nearest with ties to even: the result `(m, E)` denotes `m · 2^E`;
`Option.none` is overflow to infinity. Normal values carry a 53-bit
significand (`m · 2^(e-52)` with `2^52 ≤ m < 2^53` before a possible
rounding carry); values below `2^-1022` round on the fixed subnormal grid
`2^-1074`. -/
def roundPosDouble (a b : Nat) : Option (Nat × Int) :=
  let e : Int := ratFloorLog2 a b
  if e < -1022 then
    some (rndNE (a * 2 ^ 1074) b, -1074)
  else
    let sh : Int := e - 52
    let N := if 0 ≤ sh then a else a * 2 ^ (-sh).toNat
    let D := if 0 ≤ sh then b * 2 ^ sh.toNat else b
    let m := rndNE N D
    let me : Nat × Int := if m = 2 ^ 53 then (2 ^ 52, e + 1) else (m, e)
    if 1023 < me.2 then Option.none
    else some (me.1, me.2 - 52)

/-- The binary64 value nearest to the exact decimal `n / 10^k`, as `(M, E)`
denoting `M · 2^E`; `Option.none` models overflow to ±infinity (on which
`int()` raises `OverflowError`, so `_to_int` returns the default). -/
def roundDouble (n : Int) (k : Nat) : Option (Int × Int) :=
  if n = 0 then some (0, 0)
  else
    (roundPosDouble n.natAbs (10 ^ k)).map
      (fun me => (if 0 ≤ n then (me.1 : Int) else -(me.1 : Int), me.2))

/-- Truncation toward zero of the double `M · 2^E`: `int()` on a finite
float. -/
def truncScaled (M E : Int) : Int :=
  if 0 ≤ E then M * 2 ^ E.toNat else Int.tdiv M (2 ^ (-E).toNat)

/-- Embedding of Python `int(float(s))` on a stripped string: parse the
decimal literal exactly, round it to the nearest binary64 double, truncate
toward zero. `Option.none` covers both `float()` raising `ValueError` and
`int()` raising `OverflowError` on an infinite result — `_to_int` catches
either and returns the default. -/
def strToIntPy (cs : List Char) : Option Int :=
  match parseDecimalParts cs with
  | Option.none => Option.none
  | some nk =>
    match roundDouble nk.1 nk.2 with
    | Option.none => Option.none
    | some me => some (truncScaled me.1 me.2)

/-- Truncation of a rational toward zero: embedding of Python `int(f)` on a
finite float `f`. -/
def truncRat (q : Rat) : Int := Int.tdiv q.num q.den

/-- Embedding of `CricketDataProcessor._to_int` (`data_processor.py:46`,
mirrored verbatim by `PlayerStatsCalculator._to_int`, `player_stats.py:12`):
safe conversion of assorted numeric-like values to `Int` with a default. -/
def to_int (value : PyVal) (default : Int) : Int :=
  match value with
  | .none => default
  | .bool b => if b then 1 else 0
  | .int n => n
  | .float q => truncRat q
  | .str s =>
    let t := pyStrip s
    if t = "" then default
    else
      match strToIntPy t.toList with
      | some v => v
      | Option.none => default
  | .other => default

/-- Embedding of Python `round(x, n)` on the rational model of floats:
round half to even at `n` decimal places. -/
def pyRound (n : Nat) (q : Rat) : Rat :=
  let scaled := q * 10 ^ n
  let f : Int := ⌊scaled⌋
  let r := scaled - (f : Rat)
  let rounded : Int :=
    if r < 1 / 2 then f
    else if 1 / 2 < r then f + 1
    else if f % 2 = 0 then f else f + 1
  (rounded : Rat) / 10 ^ n

/-! ### Data model

The nested match-document structure (`info` block plus innings → overs →
deliveries), as consumed by `data_processor.py`. Dictionary fields that the
code reads with `.get(key)` are embedded as `Option`; the `runs` sub-fields
are `PyVal` because the code coerces them with `_to_int`. Presentation-only
info fields that no verified operation reads are omitted. -/

structure Runs where
  batter : PyVal
  extras : PyVal
  total : PyVal
deriving DecidableEq, Repr

structure Wicket where
  player_out : String
  kind : String
deriving DecidableEq, Repr

/-- The optional `extras` detail dict of a delivery; a field is `some` when
the corresponding key is present. -/
structure ExtrasDetail where
  wides : Option PyVal
  noballs : Option PyVal
deriving DecidableEq, Repr

structure Delivery where
  batter : String
  bowler : String
  runs : Runs
  extras : Option ExtrasDetail
  wickets : List Wicket
deriving DecidableEq, Repr

structure Over where
  deliveries : List Delivery
deriving DecidableEq, Repr

structure Inning where
  team : String
  overs : List Over
deriving DecidableEq, Repr

structure MatchInfo where
  venue : Option String
  city : Option String
  match_type : Option String
  teams : List String
  players : List (String × List String)
  dates : List String
  event_name : Option String
  outcome_winner : Option String
deriving DecidableEq, Repr

structure MatchDoc where
  info : MatchInfo
  innings : List Inning
deriving DecidableEq, Repr

/-! ### Filter engine (`filter_matches`, `data_processor.py:332`)

Python truthiness on filter values is embedded as `Option` (absent, `None`
and `''` are all falsy, hence `Option.none`); a scalar `years` value is
normalized to a singleton list by the source, so `years` is a list here, and
the source's truthiness test on the (pre-normalization) value is embedded as
an emptiness test. Date comparison via `datetime.strptime` on `%Y-%m-%d`
strings is embedded as lexicographic string comparison, which agrees with
chronological order on well-formed ISO dates. -/

structure Filters where
  venue : Option String
  format : Option String
  country : Option String
  years : Option (List String)
  match_category : Option String
  team : Option String
  start_date : Option String
  end_date : Option String
  phase : Option String
  innings_type : Option String
  opponents : Option (List String)
deriving DecidableEq, Repr

/-- The all-absent filter set (Python `filters=None` / `{}`). -/
def noFilters : Filters :=
  ⟨Option.none, Option.none, Option.none, Option.none, Option.none, Option.none,
    Option.none, Option.none, Option.none, Option.none, Option.none⟩

/-- Case-insensitive-ready substring test (`pat in s` on Python strings). -/
def strContainsSub (s pat : String) : Bool :=
  decide (pat.toList <:+: s.toList)

/-- Lower-cased event name of a document (`info.get('event', {}).get('name', '').lower()`). -/
def eventNameLower (m : MatchDoc) : String :=
  (m.info.event_name.getD "").toLower

def hasIplEvent (m : MatchDoc) : Bool :=
  strContainsSub (eventNameLower m) "ipl" || strContainsSub (eventNameLower m) "indian premier league"

def venueOk (f : Filters) (m : MatchDoc) : Bool :=
  match f.venue with
  | Option.none => true
  | some v => m.info.venue == some v

def formatOk (f : Filters) (m : MatchDoc) : Bool :=
  match f.format with
  | Option.none => true
  | some v => m.info.match_type == some v

def countryOk (f : Filters) (m : MatchDoc) : Bool :=
  match f.country with
  | Option.none => true
  | some v => m.info.city == some v

def yearsOk (f : Filters) (m : MatchDoc) : Bool :=
  match f.years with
  | Option.none => true
  | some ys =>
    if ys.isEmpty then true
    else
      match m.info.dates with
      | [] => true
      | d :: _ => ys.contains (d.take 4)

def categoryOk (f : Filters) (m : MatchDoc) : Bool :=
  match f.match_category with
  | Option.none => true
  | some c =>
    if c.toLower = "ipl" then hasIplEvent m
    else if c.toLower = "international" then !(hasIplEvent m)
    else true

def teamOk (f : Filters) (m : MatchDoc) : Bool :=
  match f.team with
  | Option.none => true
  | some t => m.info.teams.contains t

def dateRangeOk (f : Filters) (m : MatchDoc) : Bool :=
  match f.start_date, f.end_date with
  | Option.none, Option.none => true
  | sd, ed =>
    match m.info.dates with
    | [] => true
    | d :: _ =>
      (match sd with
       | some s => !(decide (d < s))
       | Option.none => true) &&
      (match ed with
       | some e => !(decide (e < d))
       | Option.none => true)

/-- One document's passage through the predicate chain of `filter_matches`:
the conjunction of all guards, in source order. -/
def matchPasses (f : Filters) (m : MatchDoc) : Bool :=
  venueOk f m && formatOk f m && countryOk f m && yearsOk f m && categoryOk f m &&
    teamOk f m && dateRangeOk f m

/-- Embedding of `filter_matches` over the store's document list. -/
def filter_matches (store : List MatchDoc) (f : Filters) : List MatchDoc :=
  store.filter (matchPasses f)

/-! ### Phase resolver (`_resolve_phase_over_range`, `data_processor.py:612`)
and the phase buckets of `_calculate_phase_analysis` (`player_stats.py:611`). -/

def t20_map (phase : String) : Option (Nat × Nat) :=
  if phase = "t20_1_6" then some (1, 6)
  else if phase = "t20_7_12" then some (7, 12)
  else if phase = "t20_13_16" then some (13, 16)
  else if phase = "t20_17_20" then some (17, 20)
  else Option.none

def odi_map (phase : String) : Option (Nat × Nat) :=
  if phase = "odi_1_10" then some (1, 10)
  else if phase = "odi_11_20" then some (11, 20)
  else if phase = "odi_21_30" then some (21, 30)
  else if phase = "odi_31_40" then some (31, 40)
  else if phase = "odi_41_50" then some (41, 50)
  else Option.none

/-- The format used to gate phase resolution: the filter's `format` if
truthy, else the document's `match_type` if a document is given. -/
def effective_format (minfo : Option MatchInfo) (f : Filters) : Option String :=
  match f.format with
  | some fv => some fv
  | Option.none =>
    match minfo with
    | some i => i.match_type
    | Option.none => Option.none

/-- Embedding of `_resolve_phase_over_range`: `Option.none` plays the role
of the Python `(None, None)` result (no restriction). -/
def resolve_phase_over_range (minfo : Option MatchInfo) (f : Option Filters) :
    Option (Nat × Nat) :=
  match f with
  | Option.none => Option.none
  | some f =>
    match f.phase with
    | Option.none => Option.none
    | some phase =>
      let fmt := effective_format minfo f
      if (t20_map phase).isSome && (fmt.isNone || fmt == some "T20") then t20_map phase
      else if (odi_map phase).isSome &&
          (fmt.isNone || fmt == some "ODI" || fmt == some "ODM") then odi_map phase
      else Option.none

/-- The per-over phase-bucket assignment of `_calculate_phase_analysis`
(`player_stats.py:616`), given the document's `match_type` and the 1-based
over number. -/
def phase_bucket (fmt : String) (over_number : Nat) : Option String :=
  if fmt = "T20" then
    if 1 ≤ over_number ∧ over_number ≤ 6 then some "phase1"
    else if 7 ≤ over_number ∧ over_number ≤ 12 then some "phase2"
    else if 13 ≤ over_number ∧ over_number ≤ 16 then some "phase3"
    else if 17 ≤ over_number ∧ over_number ≤ 20 then some "phase4"
    else Option.none
  else if fmt = "ODI" ∨ fmt = "ODM" then
    if 1 ≤ over_number ∧ over_number ≤ 10 then some "phase1"
    else if 11 ≤ over_number ∧ over_number ≤ 20 then some "phase2"
    else if 21 ≤ over_number ∧ over_number ≤ 30 then some "phase3"
    else if 31 ≤ over_number ∧ over_number ≤ 40 then some "phase4"
    else if 41 ≤ over_number ∧ over_number ≤ 50 then some "phase5"
    else Option.none
  else Option.none

/-! ### Per-innings batting extraction (`_extract_batting_stats`,
`data_processor.py:479`) -/

/-- The loop guard `if over_start and over_end and not (over_start <= idx <= over_end)`:
an over at 1-based index `idx` is processed iff this is true. The resolver
only ever produces bounds `≥ 1`, so both bounds are truthy exactly when the
range is `some`. -/
def overInRange (range : Option (Nat × Nat)) (idx : Nat) : Bool :=
  match range with
  | Option.none => true
  | some (s, e) => decide (s ≤ idx) && decide (idx ≤ e)

/-- The overs the extraction loop processes: `enumerate(overs, start=1)`
restricted by the phase range. -/
def selectedOvers (range : Option (Nat × Nat)) (overs : List Over) : List Over :=
  (overs.enum.filter (fun io => overInRange range (io.1 + 1))).map (fun io => io.2)

/-- The deliveries of the selected overs whose `batter` is the player: the
deliveries that contribute to a batting summary. There is no legality
check — wides and no-balls faced are included. -/
def facedDeliveries (p : String) (range : Option (Nat × Nat)) (overs : List Over) :
    List Delivery :=
  (((selectedOvers range overs).map (fun o => o.deliveries)).flatten).filter
    (fun d => d.batter == p)

/-- The mutable `batting_stats` dict of `_extract_batting_stats`. -/
structure BatAcc where
  runs : Int
  balls : Nat
  fours : Nat
  sixes : Nat
  ones : Nat
  twos : Nat
  dots : Nat
  dismissal : Bool
  dismissal_type : Option String
deriving DecidableEq, Repr

def batInit : BatAcc :=
  ⟨0, 0, 0, 0, 0, 0, 0, false, Option.none⟩

/-- The dismissal scan over a delivery's wickets: the first wicket whose
`player_out` is the player sets the dismissal flag and kind. -/
def batWicket (p : String) (acc : BatAcc) (ws : List Wicket) : BatAcc :=
  match ws.find? (fun w => w.player_out == p) with
  | some w => { acc with dismissal := true, dismissal_type := some w.kind }
  | Option.none => acc

/-- One delivery of the batting-extraction loop body. -/
def batStep (p : String) (acc : BatAcc) (d : Delivery) : BatAcc :=
  if d.batter = p then
    let r := to_int d.runs.batter 0
    let acc1 := { acc with runs := acc.runs + r, balls := acc.balls + 1 }
    let acc2 :=
      if r = 0 then { acc1 with dots := acc1.dots + 1 }
      else if r = 1 then { acc1 with ones := acc1.ones + 1 }
      else if r = 2 then { acc1 with twos := acc1.twos + 1 }
      else if r = 4 then { acc1 with fours := acc1.fours + 1 }
      else if r = 6 then { acc1 with sixes := acc1.sixes + 1 }
      else acc1
    batWicket p acc2 d.wickets
  else acc

/-- Embedding of `_extract_batting_stats`: walk the selected overs'
deliveries and return the stats dict, or `Option.none` when no ball was
faced (the source returns `None` then). -/
def extract_batting_stats (inn : Inning) (p : String) (range : Option (Nat × Nat)) :
    Option BatAcc :=
  let final := (selectedOvers range inn.overs).foldl
    (fun acc o => o.deliveries.foldl (batStep p) acc) batInit
  if final.balls > 0 then some final else Option.none

/-- Balls of an optional batting summary (0 when none was emitted). -/
def ballsOf (o : Option BatAcc) : Nat :=
  match o with
  | some b => b.balls
  | Option.none => 0

/-! ### Batting aggregation (`_calculate_batting_stats`, `player_stats.py:71`) -/

/-- The aggregated batting report. The presentation-only fields
(`high_score` string, run-distribution dictionaries) are omitted; every
numeric field the claims mention is present. -/
structure BatReport where
  matches_count : Nat
  innings : Nat
  runs : Int
  balls : Nat
  average : Rat
  strike_rate : Rat
  not_outs : Nat
  fours : Nat
  sixes : Nat
  fifties : Nat
  hundreds : Nat
  double_hundreds : Nat
  boundary_percentage : Rat
deriving DecidableEq, Repr

/-- `_empty_batting_stats` (`player_stats.py:291`), restricted to the
embedded fields. -/
def empty_batting_stats : BatReport :=
  ⟨0, 0, 0, 0, 0, 0, 0, 0, 0, 0, 0, 0, 0⟩

/-- Embedding of `_calculate_batting_stats` on the flattened list of
per-innings batting summaries. -/
def calculate_batting_stats (l : List BatAcc) : BatReport :=
  if l.isEmpty then empty_batting_stats
  else
    let total_runs : Int := (l.map (fun b => b.runs)).sum
    let total_balls : Nat := (l.map (fun b => b.balls)).sum
    let total_fours := (l.map (fun b => b.fours)).sum
    let total_sixes := (l.map (fun b => b.sixes)).sum
    let dismissals := (l.filter (fun b => b.dismissal)).length
    let strike_rate : Rat :=
      if total_balls > 0 then (total_runs : Rat) / (total_balls : Rat) * 100 else 0
    let average : Rat :=
      if dismissals > 0 then (total_runs : Rat) / (dismissals : Rat) else (total_runs : Rat)
    let fifties := (l.filter (fun b => decide (50 ≤ b.runs ∧ b.runs < 100))).length
    let hundreds := (l.filter (fun b => decide (100 ≤ b.runs ∧ b.runs < 200))).length
    let double_hundreds := (l.filter (fun b => decide (200 ≤ b.runs))).length
    let boundary_runs : Int := (total_fours : Int) * 4 + (total_sixes : Int) * 6
    let boundary_percentage : Rat :=
      if total_runs > 0 then (boundary_runs : Rat) / (total_runs : Rat) * 100 else 0
    { matches_count := l.length
      innings := l.length
      runs := total_runs
      balls := total_balls
      average := pyRound 2 average
      strike_rate := pyRound 2 strike_rate
      not_outs := l.length - dismissals
      fours := total_fours
      sixes := total_sixes
      fifties := fifties
      hundreds := hundreds
      double_hundreds := double_hundreds
      boundary_percentage := pyRound 2 boundary_percentage }

/-! ### Per-innings bowling extraction (`_extract_bowling_stats`,
`data_processor.py:531`) -/

/-- The dismissal kinds never credited to the bowler
(`data_processor.py:597`, `player_stats.py:669`, `player_stats.py:741`). -/
def excludedKinds : List String := ["run out", "retired hurt", "retired out"]

/-- The mutable `bowling_stats` dict of `_extract_bowling_stats` (the
`overs` figure is filled in at the end). -/
structure BowlAcc where
  overs : Rat
  balls : Nat
  runs_conceded : Int
  wickets : Nat
  maidens : Nat
  dots : Nat
  fours_conceded : Nat
  sixes_conceded : Nat
  wides : Int
  no_balls : Int
  wicket_types : List String
deriving DecidableEq, Repr

def bowlInit : BowlAcc :=
  ⟨0, 0, 0, 0, 0, 0, 0, 0, 0, 0, []⟩

/-- `if 'wides' in extra_types: bowling_stats['wides'] += ...`. -/
def addWides (acc : BowlAcc) (wv : Option PyVal) : BowlAcc :=
  match wv with
  | some v => { acc with wides := acc.wides + to_int v 0 }
  | Option.none => acc

/-- `if 'noballs' in extra_types: bowling_stats['no_balls'] += ...`. -/
def addNoballs (acc : BowlAcc) (nv : Option PyVal) : BowlAcc :=
  match nv with
  | some v => { acc with no_balls := acc.no_balls + to_int v 0 }
  | Option.none => acc

/-- The wides/no-balls accumulation over a delivery's optional extras dict. -/
def extrasUpdate (acc : BowlAcc) (e : Option ExtrasDetail) : BowlAcc :=
  match e with
  | some ed => addNoballs (addWides acc ed.wides) ed.noballs
  | Option.none => acc

/-- A delivery is legal iff neither a `wides` nor a `noballs` key is
present in its extras dict. -/
def isLegalDelivery (e : Option ExtrasDetail) : Bool :=
  match e with
  | some ed => ed.wides.isNone && ed.noballs.isNone
  | Option.none => true

/-- The boundary/dot classification on conceded runs. -/
def boundaryUpdate (acc : BowlAcc) (batter_runs extras : Int) : BowlAcc :=
  if batter_runs = 4 then { acc with fours_conceded := acc.fours_conceded + 1 }
  else if batter_runs = 6 then { acc with sixes_conceded := acc.sixes_conceded + 1 }
  else if batter_runs = 0 ∧ extras = 0 then { acc with dots := acc.dots + 1 }
  else acc

/-- The per-delivery wicket scan of `_extract_bowling_stats`: every wicket
whose kind is not an excluded kind increments `wickets` and appends the
kind, regardless of who was dismissed. -/
def bowlWickets (acc : BowlAcc) (ws : List Wicket) : BowlAcc :=
  ws.foldl (fun acc w =>
    if w.kind ∉ excludedKinds then
      { acc with wickets := acc.wickets + 1, wicket_types := acc.wicket_types ++ [w.kind] }
    else acc) acc

/-- Loop state inside one over of the bowling extraction: the accumulating
stats dict plus the per-over `over_runs` and `over_legal_balls` counters.
(The source's `over_balls` counter is written but never read, and is
omitted.) -/
structure OverState where
  acc : BowlAcc
  over_runs : Int
  over_legal : Nat
deriving DecidableEq, Repr

/-- One delivery of the bowling-extraction loop body. -/
def bowlStep (p : String) (st : OverState) (d : Delivery) : OverState :=
  if d.bowler = p then
    let runs := to_int d.runs.total 0
    let acc1 := { st.acc with balls := st.acc.balls + 1 }
    let acc2 := extrasUpdate acc1 d.extras
    let acc3 := { acc2 with runs_conceded := acc2.runs_conceded + runs }
    let acc4 := boundaryUpdate acc3 (to_int d.runs.batter 0) (to_int d.runs.extras 0)
    let acc5 := bowlWickets acc4 d.wickets
    { acc := acc5
      over_runs := st.over_runs + runs
      over_legal := st.over_legal + (if isLegalDelivery d.extras then 1 else 0) }
  else st

/-- One over of the bowling-extraction loop: fold the deliveries, then apply
the maiden-over check (exactly 6 legal balls and zero runs conceded). -/
def bowlOver (p : String) (acc : BowlAcc) (o : Over) : BowlAcc :=
  let st := o.deliveries.foldl (bowlStep p) ⟨acc, 0, 0⟩
  if st.over_legal = 6 ∧ st.over_runs = 0 then
    { st.acc with maidens := st.acc.maidens + 1 }
  else st.acc

/-- Embedding of `_extract_bowling_stats`: walk the selected overs, then
compute the conventional overs figure `legal // 6 + (legal % 6) / 10`
(Python `//`/`%`, hence `Int.fdiv`/`Int.fmod`); `Option.none` when no ball
was bowled. -/
def extract_bowling_stats (inn : Inning) (p : String) (range : Option (Nat × Nat)) :
    Option BowlAcc :=
  let final := (selectedOvers range inn.overs).foldl (bowlOver p) bowlInit
  if final.balls > 0 then
    some { final with
      overs := ((Int.fdiv ((final.balls : Int) - final.wides - final.no_balls) 6 : Int) : Rat)
        + ((Int.fmod ((final.balls : Int) - final.wides - final.no_balls) 6 : Int) : Rat) / 10 }
  else Option.none

/-- Wickets of an optional bowling summary (0 when none was emitted). -/
def wicketsOf (o : Option BowlAcc) : Nat :=
  match o with
  | some b => b.wickets
  | Option.none => 0

/-- The number of bowler-credited wicket entries on one delivery: those
whose kind is not excluded. -/
def creditedWickets (d : Delivery) : Nat :=
  (d.wickets.filter (fun w => decide (w.kind ∉ excludedKinds))).length

/-- The deliveries of the selected overs bowled by the player. -/
def bowledDeliveries (p : String) (range : Option (Nat × Nat)) (overs : List Over) :
    List Delivery :=
  (((selectedOvers range overs).map (fun o => o.deliveries)).flatten).filter
    (fun d => d.bowler == p)

/-- The bowling-perspective wicket update of `_calculate_rivalry_analysis`
(`player_stats.py:745`): on a delivery bowled by the player with a truthy
batter, each wicket with a non-excluded kind and a truthy `player_out`
equal to the facing batter increments `wickets_against[batter]`. The
per-batter tallies are a function `String → Nat`. -/
def rivalryBowlWickets (p : String) (m : String → Nat) (d : Delivery) : String → Nat :=
  if d.bowler = p ∧ d.batter ≠ "" then
    d.wickets.foldl (fun m w =>
      if w.kind ∉ excludedKinds ∧ w.player_out ≠ "" ∧ w.player_out = d.batter then
        fun b => if b = d.batter then m b + 1 else m b
      else m) m
  else m

/-! ### Bowling aggregation (`_calculate_bowling_stats`, `player_stats.py:155`) -/

def sumOvers (l : List BowlAcc) : Rat := (l.map (fun s => s.overs)).sum

def sumRunsConceded (l : List BowlAcc) : Int := (l.map (fun s => s.runs_conceded)).sum

def sumWickets (l : List BowlAcc) : Nat := (l.map (fun s => s.wickets)).sum

def sumBalls (l : List BowlAcc) : Nat := (l.map (fun s => s.balls)).sum

def sumMaidens (l : List BowlAcc) : Nat := (l.map (fun s => s.maidens)).sum

def sumDots (l : List BowlAcc) : Nat := (l.map (fun s => s.dots)).sum

/-- The aggregated bowling report. The presentation-only fields
(`best_bowling` string, wicket-type dictionaries) are omitted. -/
structure BowlReport where
  matches_count : Nat
  innings : Nat
  overs : Rat
  runs : Int
  wickets : Nat
  average : Rat
  economy : Rat
  strike_rate : Rat
  maidens : Nat
  three_wickets : Nat
  five_wickets : Nat
  dot_ball_percentage : Rat
deriving DecidableEq, Repr

/-- `_empty_bowling_stats` (`player_stats.py:312`), restricted to the
embedded fields. -/
def empty_bowling_stats : BowlReport :=
  ⟨0, 0, 0, 0, 0, 0, 0, 0, 0, 0, 0, 0⟩

/-- Embedding of `_calculate_bowling_stats` on the flattened list of
per-innings bowling summaries. -/
def calculate_bowling_stats (l : List BowlAcc) : BowlReport :=
  if l.isEmpty then empty_bowling_stats
  else
    { matches_count := l.length
      innings := l.length
      overs := pyRound 1 (sumOvers l)
      runs := sumRunsConceded l
      wickets := sumWickets l
      average := pyRound 2
        (if 0 < sumWickets l then (sumRunsConceded l : Rat) / (sumWickets l : Rat) else 0)
      economy := pyRound 2
        (if 0 < sumOvers l then (sumRunsConceded l : Rat) / sumOvers l else 0)
      strike_rate := pyRound 1
        (if 0 < sumWickets l then (sumBalls l : Rat) / (sumWickets l : Rat) else 0)
      maidens := sumMaidens l
      three_wickets := (l.filter (fun s => decide (3 ≤ s.wickets))).length
      five_wickets := (l.filter (fun s => decide (5 ≤ s.wickets))).length
      dot_ball_percentage := pyRound 2
        (if 0 < sumBalls l then (sumDots l : Rat) / (sumBalls l : Rat) * 100 else 0) }

/-! ### Concrete documents used by witnesses -/

/-- A single delivery: a boundary four faced by "P" off "B", no wicket. -/
def fourDelivery : Delivery :=
  ⟨"P", "B", ⟨.int 4, .int 0, .int 4⟩, Option.none, []⟩

/-- An innings containing exactly that one delivery. -/
def fourInning : Inning :=
  ⟨"T", [⟨[fourDelivery]⟩]⟩

/-- The batting summary of a one-ball, one-four, not-out innings. -/
def bsFour : BatAcc :=
  ⟨4, 1, 1, 0, 0, 0, 0, false, Option.none⟩

/-- A concrete per-innings bowling summary: 24 balls, 30 conceded, 2
wickets. -/
def sampleSpell : BowlAcc :=
  ⟨4, 24, 30, 2, 0, 10, 3, 1, 0, 0, ["caught", "bowled"]⟩

/-- A delivery bowled by "P" to batter "B" on which a wicket of kind
"caught" is recorded with `player_out` a third player "C". -/
def strayWicketDelivery : Delivery :=
  ⟨"B", "P", ⟨.int 0, .int 0, .int 0⟩, Option.none, [⟨"C", "caught"⟩]⟩

/-- An innings containing exactly that one delivery. -/
def strayWicketInning : Inning :=
  ⟨"T", [⟨[strayWicketDelivery]⟩]⟩

/-- A 2023 match between teams "A" and "B". -/
def teamDoc2023 : MatchDoc :=
  ⟨⟨some "V", some "C", some "T20", ["A", "B"], [("A", ["P1"]), ("B", ["P2"])],
    ["2023-05-01"], Option.none, Option.none⟩, []⟩

/-- A filter set selecting only the year 2022. -/
def years2022Filter : Filters :=
  { noFilters with years := some ["2022"] }

/-- A document whose info block has an empty `dates` sequence. -/
def noDatesDoc : MatchDoc :=
  ⟨⟨some "V", some "C", some "T20", ["A", "B"], [("A", ["P1"]), ("B", ["P2"])],
    [], Option.none, Option.none⟩, []⟩

/-- A filter set restricting both years and a date range. -/
def yearsFilter : Filters :=
  { noFilters with
    years := some ["2023"]
    start_date := some "2024-01-01"
    end_date := some "2024-12-31" }

/-! ### Loader second pass (`start_background_supabase_load`,
`data_processor.py:219`) -/

/-- The residual-key computation before the second pass
(`data_processor.py:224`): Python-truthiness guard on `_ingested_keys` and
`_total_files` (the latter equals `len(keys)` at this point). -/
def compute_missing (keys ingested : List String) : List String :=
  if !ingested.isEmpty && keys.length != 0 then
    keys.filter (fun k => !(ingested.contains k))
  else []

/-- The second pass is entered iff the residual list is nonempty
(`if missing:`). -/
def second_pass_runs (missing : List String) : Bool := !missing.isEmpty

/-- The second-pass worker-pool size `max(2, min(6, len(missing)))`
(`data_processor.py:230`). -/
def second_pass_workers (missing : List String) : Nat := max 2 (min 6 missing.length)

/-! ### Capped loader run (modelled from the spec)

Modelled from the spec: the cap-aware loader
`start_background_local_load(max_workers, max_unique_matches)` is invoked by
`smoke_test_unique_cap.py` but its definition is not under `src/`; spec §4.2
specifies it: keys are dispatched to a bounded worker pool of size `W`, and
when the unique-match cap is set no new work is submitted once the store has
reached the cap, while in-flight downloads may still land (a bounded
overshoot). -/

/-- Modelled from the spec: the observable state of one capped load run —
keys not yet submitted, submitted downloads not yet finished, and matches
ingested into the store. -/
structure LoaderState where
  pending : Nat
  inflight : Nat
  store : Nat
deriving DecidableEq, Repr

/-- Modelled from the spec: submission of one key to the worker pool,
enabled only while the store is below the cap and a worker is free. -/
inductive LoaderSubmit (W cap : Nat) : LoaderState → LoaderState → Prop where
  | mk (p i st : Nat) (hst : st < cap) (hi : i < W) (hp : 0 < p) :
      LoaderSubmit W cap ⟨p, i, st⟩ ⟨p - 1, i + 1, st⟩

/-- Modelled from the spec: one scheduler step of a capped load run —
submit a key, finish an in-flight download with a successful ingest, or
finish one with a failure or schema skip. -/
inductive LoaderStep (W cap : Nat) : LoaderState → LoaderState → Prop where
  | submit {s t : LoaderState} : LoaderSubmit W cap s t → LoaderStep W cap s t
  | finish_ok (p i st : Nat) : 0 < i → LoaderStep W cap ⟨p, i, st⟩ ⟨p, i - 1, st + 1⟩
  | finish_fail (p i st : Nat) : 0 < i → LoaderStep W cap ⟨p, i, st⟩ ⟨p, i - 1, st⟩

/-- The initial state of a run over `n` enumerated keys. -/
def loaderInit (n : Nat) : LoaderState := ⟨n, 0, 0⟩

/-- Reachability of a loader state within one capped run. -/
def LoaderReachable (W cap n : Nat) (s : LoaderState) : Prop :=
  Relation.ReflTransGen (LoaderStep W cap) (loaderInit n) s

/-! ### Query-time error dispatch (`get_player_stats`, `player_stats.py:32`;
`get_team_stats`, `team_analyzer.py:13`; `get_venue_stats`,
`venue_analyzer.py:12`)

Each endpoint wraps its body in `try/except` and returns error dictionaries
as data; the embeddings below are the (total) error-dispatch logic, with
`Option.none` meaning "no error: a stats report is produced". -/

/-- The `players_cache` contents after ingesting the given store: every
player name listed in any document's `info.players` mapping. -/
def allPlayersOf (store : List MatchDoc) : List String :=
  store.flatMap (fun m => m.info.players.flatMap (fun tp => tp.2))

/-- The `teams_cache` contents after ingesting the given store. -/
def allTeamsOf (store : List MatchDoc) : List String :=
  store.flatMap (fun m => m.info.teams)

/-- The player's team per `get_player_match_data` (`data_processor.py:425`):
the first team of the `info.players` mapping whose squad contains the
player. -/
def playerTeam (m : MatchDoc) (p : String) : Option String :=
  (m.info.players.find? (fun tp => tp.2.contains p)).map (fun tp => tp.1)

/-- Whether the player's team batted first (`data_processor.py:436`):
`Option.none` when there are no innings or the team name is falsy. -/
def battedFirst (m : MatchDoc) (team : String) : Option Bool :=
  match m.innings with
  | [] => Option.none
  | i :: _ => if team = "" then Option.none else some (i.team == team)

/-- The `innings_type` filter of `get_player_match_data`
(`data_processor.py:443`). -/
def passesInningsType (itype : Option String) (bf : Option Bool) : Bool :=
  match itype, bf with
  | some "batting_first", some false => false
  | some "bowling_first", some true => false
  | _, _ => true

/-- The matches contributed to a player query: the filtered store restricted
to documents listing the player, after the `innings_type` check. (The
diagnostic `max_matches` truncation only caps the list's length and is not
modelled.) -/
def player_match_list (store : List MatchDoc) (p : String) (f : Filters) : List MatchDoc :=
  (filter_matches store f).filter (fun m =>
    match playerTeam m p with
    | Option.none => false
    | some t => passesInningsType f.innings_type (battedFirst m t))

def playerNotFoundMsg (p : String) : String :=
  "Player \"" ++ p ++ "\" not found in the database"

def playerNoMatchesMsg (p : String) : String :=
  "No matches found for player \"" ++ p ++ "\" with the applied filters"

/-- The error dispatch of `get_player_stats` (`player_stats.py:32`). -/
def get_player_stats_error (store : List MatchDoc) (p : String) (f : Filters) :
    Option String :=
  if pyStrip p = "" then some "Player name cannot be empty"
  else if (player_match_list store p f).isEmpty then
    if !(allPlayersOf store).contains p then some (playerNotFoundMsg p)
    else some (playerNoMatchesMsg p)
  else Option.none

/-- The top-level filter subset applied first by `get_team_match_data`
(`data_processor.py:653`). -/
def base_filters (f : Filters) : Filters :=
  { noFilters with
    venue := f.venue
    format := f.format
    country := f.country
    years := f.years
    match_category := f.match_category }

/-- The opponent of the team under analysis: the first listed team that is
not it (`data_processor.py:669`). -/
def opponentOf (m : MatchDoc) (t : String) : Option String :=
  m.info.teams.find? (fun x => x != t)

/-- The `opponents` filter of `get_team_match_data` (`data_processor.py:675`). -/
def opponentsOk (f : Filters) (m : MatchDoc) (t : String) : Bool :=
  match f.opponents with
  | Option.none => true
  | some l =>
    if l.isEmpty then true
    else
      match opponentOf m t with
      | some o => l.contains o
      | Option.none => false

/-- The team's `batting_first` flag (`data_processor.py:711`): the loop
writes `True` at innings index 0 and `False` at index 1, later write wins. -/
def teamBattingFirst (m : MatchDoc) (t : String) : Option Bool :=
  match m.innings with
  | [] => Option.none
  | [i0] => if i0.team = t then some true else Option.none
  | i0 :: i1 :: _ =>
    if i1.team = t then some false
    else if i0.team = t then some true
    else Option.none

/-- The match-level `innings_type` filter of `get_team_match_data`
(`data_processor.py:725`). -/
def passesTeamInningsType (itype : Option String) (bf : Option Bool) : Bool :=
  match itype, bf with
  | some "first", some false => false
  | some "second", some true => false
  | _, _ => true

/-- The matches contributed to a team query (`get_team_match_data`). -/
def team_match_list (store : List MatchDoc) (t : String) (f : Filters) : List MatchDoc :=
  (filter_matches store (base_filters f)).filter (fun m =>
    m.info.teams.contains t && opponentsOk f m t
      && passesTeamInningsType f.innings_type (teamBattingFirst m t))

def teamNoDataMsg (t : String) : String := "No data found for team " ++ t

/-- The error dispatch of `get_team_stats` (`team_analyzer.py:13`): one
message for both the unknown-team and the no-matches-under-filters case. -/
def get_team_stats_error (store : List MatchDoc) (t : String) (f : Filters) :
    Option String :=
  if (team_match_list store t f).isEmpty then some (teamNoDataMsg t) else Option.none

/-- The matches contributed to a venue query (`get_venue_matches`,
`data_processor.py:758`): the filters with `venue` forced to the queried
name. -/
def venue_match_list (store : List MatchDoc) (v : String) (f : Filters) : List MatchDoc :=
  filter_matches store { f with venue := some v }

def venueNoDataMsg (v : String) : String := "No data found for venue " ++ v

/-- The error dispatch of `get_venue_stats` (`venue_analyzer.py:12`): one
message for both the unknown-venue and the no-matches case. -/
def get_venue_stats_error (store : List MatchDoc) (v : String) (f : Filters) :
    Option String :=
  if (venue_match_list store v f).isEmpty then some (venueNoDataMsg v) else Option.none

/-! ### Helper lemmas about decimal strings and truncation -/

theorem digit_not_ws (c : Char) (h : c.isDigit = true) : c.isWhitespace = false := by
  simp only [Char.isDigit, Bool.and_eq_true, decide_eq_true_eq] at h
  have h1 : (48 : UInt32).toNat ≤ c.val.toNat := h.1
  have e : (48 : UInt32).toNat = 48 := rfl
  have hne : ∀ d : Char, d.val.toNat < 48 → c ≠ d := by
    intro d hd hc
    subst hc
    omega
  simp only [Char.isWhitespace, Bool.or_eq_false_iff, decide_eq_false_iff_not]
  exact ⟨⟨⟨hne ' ' (by decide), hne '\t' (by decide)⟩, hne '\r' (by decide)⟩,
    hne '\n' (by decide)⟩

theorem digit_ne (c d : Char) (h : c.isDigit = true) (hd : d.isDigit = false) : c ≠ d := by
  intro hc
  subst hc
  rw [h] at hd
  exact Bool.noConfusion hd

theorem takeWhile_all_append (p : Char → Bool) (l l' : List Char) (h : l.all p = true) :
    (l ++ l').takeWhile p = l ++ l'.takeWhile p := by
  induction l with
  | nil => rfl
  | cons c t ih =>
    simp only [List.all_cons, Bool.and_eq_true] at h
    simp [List.takeWhile, h.1, ih h.2]

theorem dropWhile_all_append (p : Char → Bool) (l l' : List Char) (h : l.all p = true) :
    (l ++ l').dropWhile p = l'.dropWhile p := by
  induction l with
  | nil => rfl
  | cons c t ih =>
    simp only [List.all_cons, Bool.and_eq_true] at h
    simp [List.dropWhile, h.1, ih h.2]

theorem takeWhile_all (p : Char → Bool) (l : List Char) (h : l.all p = true) :
    l.takeWhile p = l := by
  have := takeWhile_all_append p l [] h
  simpa using this

theorem dropWhile_all (p : Char → Bool) (l : List Char) (h : l.all p = true) :
    l.dropWhile p = [] := by
  have := dropWhile_all_append p l [] h
  simpa using this

theorem dropWhile_all_false (p : Char → Bool) (l : List Char)
    (h : l.all (fun c => !(p c)) = true) : l.dropWhile p = l := by
  cases l with
  | nil => rfl
  | cons c t =>
    simp only [List.all_cons, Bool.and_eq_true, Bool.not_eq_true'] at h
    simp [List.dropWhile, h.1]

theorem pyStrip_id (cs : List Char) (h : cs.all (fun c => !(c.isWhitespace)) = true) :
    pyStrip (String.mk cs) = String.mk cs := by
  unfold pyStrip
  have h1 : (String.mk cs).toList = cs := rfl
  rw [h1, dropWhile_all_false _ _ h]
  rw [dropWhile_all_false _ _ (by simpa using h)]
  simp

theorem splitSign_digit (c : Char) (t : List Char) (hc : c.isDigit = true) :
    splitSign (c :: t) = (1, c :: t) := by
  have hcm : c ≠ '-' := digit_ne c '-' hc (by decide)
  have hcp : c ≠ '+' := digit_ne c '+' hc (by decide)
  simp [splitSign, hcm, hcp]

theorem all_digits_not_ws (l : List Char) (h : l.all Char.isDigit = true) :
    l.all (fun c => !(c.isWhitespace)) = true := by
  rw [List.all_eq_true] at *
  intro c hc
  simp [digit_not_ws c (h c hc)]

theorem mk_ne_empty (ds : List Char) (hne : ds ≠ []) : String.mk ds ≠ "" := by
  intro h
  exact hne (congrArg String.data h)

theorem log2fuel_spec (fuel : Nat) : ∀ n : Nat, 0 < n → n ≤ fuel →
    2 ^ log2fuel fuel n ≤ n ∧ n < 2 ^ (log2fuel fuel n + 1) := by
  induction fuel with
  | zero =>
    intro n h0 hle
    exact absurd h0 (by omega)
  | succ f ih =>
    intro n h0 hle
    rw [log2fuel]
    by_cases h2 : 2 ≤ n
    · rw [if_pos h2]
      have hrec := ih (n / 2) (by omega) (by omega)
      simp only [pow_succ] at hrec ⊢
      omega
    · rw [if_neg h2]
      norm_num
      omega

theorem natLog2_spec (n : Nat) (h0 : 0 < n) :
    2 ^ natLog2 n ≤ n ∧ n < 2 ^ (natLog2 n + 1) :=
  log2fuel_spec n n h0 le_rfl

theorem natLog2_unique (n k : Nat) (h1 : 2 ^ k ≤ n) (h2 : n < 2 ^ (k + 1)) :
    natLog2 n = k := by
  have h0 : 0 < n := lt_of_lt_of_le (Nat.pos_pow_of_pos k (by norm_num)) h1
  have hs := natLog2_spec n h0
  by_contra hne
  rcases Nat.lt_or_ge (natLog2 n) k with hlt | hge
  · have hp : (2 : Nat) ^ (natLog2 n + 1) ≤ 2 ^ k :=
      Nat.pow_le_pow_right (by norm_num) (by omega)
    omega
  · have hk : k < natLog2 n := by omega
    have hp : (2 : Nat) ^ (k + 1) ≤ 2 ^ natLog2 n :=
      Nat.pow_le_pow_right (by norm_num) (by omega)
    omega

theorem natLog2_two_mul (n : Nat) (h0 : 0 < n) : natLog2 (2 * n) = natLog2 n + 1 := by
  have hs := natLog2_spec n h0
  apply natLog2_unique
  · simp only [pow_succ]
    omega
  · simp only [pow_succ]
    omega

theorem ratFloorLog2_one (n : Nat) (h0 : 0 < n) : ratFloorLog2 n 1 = (natLog2 n : Int) := by
  have hT : natLog2 1 + 1 = 1 := rfl
  have h2 : n * 2 ^ (natLog2 1 + 1) / 1 = 2 * n := by
    rw [hT, pow_one, Nat.div_one, Nat.mul_comm]
  simp only [ratFloorLog2]
  rw [h2, natLog2_two_mul n h0, hT]
  push_cast
  ring

theorem parseDecimalParts_digits (ds : List Char) (hne : ds ≠ [])
    (hdig : ds.all Char.isDigit = true) :
    parseDecimalParts ds = some ((digitsToNat ds : Int), 0) := by
  obtain ⟨c, t, rfl⟩ : ∃ c t, ds = c :: t := by
    cases ds with
    | nil => exact absurd rfl hne
    | cons c t => exact ⟨c, t, rfl⟩
  have hc : c.isDigit = true := by
    simp only [List.all_cons, Bool.and_eq_true] at hdig
    exact hdig.1
  simp only [parseDecimalParts, splitSign_digit c t hc]
  rw [takeWhile_all _ _ hdig, dropWhile_all _ _ hdig]
  simp

theorem roundDouble_trunc_small (n : Nat) (h0 : 0 < n) (h53 : n < 2 ^ 53) :
    ∃ me : Int × Int, roundDouble (n : Int) 0 = some me ∧ truncScaled me.1 me.2 = (n : Int) := by
  have hs := natLog2_spec n h0
  have hl53 : natLog2 n ≤ 52 := by
    by_contra hgt
    have hp : (2 : Nat) ^ 53 ≤ 2 ^ natLog2 n := Nat.pow_le_pow_right (by norm_num) (by omega)
    omega
  have hne0 : (n : Int) ≠ 0 := by exact_mod_cast h0.ne'
  have habs : (n : Int).natAbs = n := Int.natAbs_ofNat n
  have he : ratFloorLog2 n 1 = (natLog2 n : Int) := ratFloorLog2_one n h0
  rw [roundDouble, if_neg hne0, habs, show (10 : Nat) ^ 0 = 1 from rfl]
  simp only [roundPosDouble, he]
  rw [if_neg (show ¬ ((natLog2 n : Int) < -1022) by omega)]
  by_cases h52 : natLog2 n = 52
  · rw [h52]
    have hm : rndNE n 1 = n := by
      rw [rndNE]
      simp [Nat.mod_one, Nat.div_one]
    norm_num [hm]
    have h53' : n < 9007199254740992 := by
      have h := h53
      norm_num at h
      exact h
    rw [if_neg (Nat.ne_of_lt h53')]
    norm_num [truncScaled]
    exact ⟨(n : Int), 0, ⟨n, ⟨rfl, rfl⟩, rfl⟩, by norm_num⟩
  · have hlt : natLog2 n < 52 := by omega
    have hsh : ¬ ((0 : Int) ≤ (natLog2 n : Int) - 52) := by omega
    simp only [if_neg hsh]
    have htn : (-((natLog2 n : Int) - 52)).toNat = 52 - natLog2 n := by omega
    rw [htn]
    have hm : rndNE (n * 2 ^ (52 - natLog2 n)) 1 = n * 2 ^ (52 - natLog2 n) := by
      rw [rndNE]
      simp [Nat.mod_one, Nat.div_one]
    rw [hm]
    have hNlt : n * 2 ^ (52 - natLog2 n) < 2 ^ 53 := by
      have hpow : (2 : Nat) ^ (natLog2 n + 1) * 2 ^ (52 - natLog2 n) = 2 ^ 53 := by
        rw [← pow_add]
        congr 1
        omega
      calc n * 2 ^ (52 - natLog2 n)
          < 2 ^ (natLog2 n + 1) * 2 ^ (52 - natLog2 n) :=
            mul_lt_mul_of_pos_right hs.2 (by positivity)
        _ = 2 ^ 53 := hpow
    rw [if_neg (Nat.ne_of_lt hNlt)]
    have h1023 : ¬ ((1023 : Int) < (natLog2 n : Int)) := by omega
    simp only []
    rw [if_neg h1023]
    refine ⟨((n * 2 ^ (52 - natLog2 n) : Nat), (natLog2 n : Int) - 52), ?_, ?_⟩
    · simp
    · rw [truncScaled, if_neg hsh, htn]
      push_cast
      exact Int.mul_tdiv_cancel _ (pow_ne_zero _ (by norm_num))

theorem to_int_digit_string (ds : List Char) (hne : ds ≠ [])
    (hdig : ds.all Char.isDigit = true) (h0 : 0 < digitsToNat ds)
    (h53 : digitsToNat ds < 2 ^ 53) (d : Int) :
    to_int (.str (String.mk ds)) d = (digitsToNat ds : Int) := by
  obtain ⟨me, hme, htr⟩ := roundDouble_trunc_small (digitsToNat ds) h0 h53
  simp only [to_int]
  rw [pyStrip_id ds (all_digits_not_ws ds hdig), if_neg (mk_ne_empty ds hne)]
  rw [show (String.mk ds).toList = ds from rfl]
  simp only [strToIntPy, parseDecimalParts_digits ds hne hdig, hme, htr]

set_option maxRecDepth 100000 in
set_option exponentiation.threshold 2000 in
/-- Counterexample for C2 as stated: `_to_int` converts a numeric string
through an IEEE-754 binary64 double, so the 17-digit numeric string
"9007199254740993" (= 2^53 + 1) is coerced to 9007199254740992 — not to its
integer value — and the numeric string "1e309" overflows the double range,
so the coercion falls back to the default 0. -/
theorem claim_C2_counterexample :
    to_int (.str "9007199254740993") 0 = 9007199254740992
    ∧ digitsToNat "9007199254740993".toList = 9007199254740993
    ∧ (9007199254740992 : Int) ≠ (9007199254740993 : Int)
    ∧ to_int (.str "1e309") 0 = 0 := by
  refine ⟨by decide, by decide, by decide, by decide⟩

/-- C2 (amended): `_to_int` is a total function (the source catches every
exception); a numeric string is converted through the nearest IEEE-754
binary64 double and truncated toward zero, so "2.0" maps to 2 (not 0) and
every digit string whose value is below 2^53 maps to exactly its integer
value, while longer numeric strings may round to a nearby representable
integer and strings overflowing the double range fall back to the default;
`None`, empty or whitespace-only strings, non-numeric strings and
non-numeric values return the default 0. -/
theorem claim_C2_to_int_double_rounding :
    to_int (.str "2.0") 0 = 2
    ∧ (∀ ds : List Char, ds ≠ [] → ds.all Char.isDigit = true →
        0 < digitsToNat ds → digitsToNat ds < 2 ^ 53 →
        ∀ d : Int, to_int (.str (String.mk ds)) d = (digitsToNat ds : Int))
    ∧ to_int (.str "0") 0 = 0
    ∧ to_int .none 0 = 0
    ∧ to_int (.str "") 0 = 0
    ∧ to_int (.str "   ") 0 = 0
    ∧ to_int (.str "not a number") 0 = 0
    ∧ to_int .other 0 = 0 := by
  refine ⟨by decide, ?_, by decide, rfl, rfl, by decide, by decide, rfl⟩
  intro ds hne hdig h0 h53 d
  exact to_int_digit_string ds hne hdig h0 h53 d

/-- Witness for C2: the general digit-string clause evaluated at the
concrete input "37", and the "2.0" clause. -/
theorem claim_C2_witness :
    to_int (.str "37") 0 = 37 ∧ to_int (.str "2.0") 0 = 2 := by
  refine ⟨?_, claim_C2_to_int_double_rounding.1⟩
  exact claim_C2_to_int_double_rounding.2.1 ['3', '7'] (by decide) (by decide) (by decide)
    (by decide) 0

theorem pyRound_intCast (n : Nat) (z : Int) : pyRound n ((z : Rat)) = (z : Rat) := by
  have hpow : (0 : Rat) < 10 ^ n := by positivity
  have h1 : ((z : Rat) * 10 ^ n) = (((z * 10 ^ n : Int)) : Rat) := by push_cast; ring
  rw [pyRound]
  simp only [h1, Int.floor_intCast]
  rw [if_pos (by norm_num)]
  rw [div_eq_iff (ne_of_gt hpow)]
  push_cast
  ring

/-! ### Batting extraction lemmas -/

theorem batWicket_balls (p : String) (acc : BatAcc) (ws : List Wicket) :
    (batWicket p acc ws).balls = acc.balls := by
  rw [batWicket]
  cases ws.find? (fun w => w.player_out == p) <;> rfl

theorem batStep_not_faced (p : String) (acc : BatAcc) (d : Delivery)
    (h : ¬ d.batter = p) : batStep p acc d = acc := by
  simp [batStep, h]

theorem batStep_balls (p : String) (acc : BatAcc) (d : Delivery) :
    (batStep p acc d).balls = acc.balls + (if d.batter = p then 1 else 0) := by
  by_cases h : d.batter = p
  · simp only [batStep, if_pos h, batWicket_balls]
    split_ifs <;> rfl
  · simp [batStep, h]

theorem foldl_batStep_filter (p : String) (l : List Delivery) (acc : BatAcc) :
    l.foldl (batStep p) acc = (l.filter (fun d => d.batter == p)).foldl (batStep p) acc := by
  induction l generalizing acc with
  | nil => rfl
  | cons d t ih =>
    rw [List.foldl_cons, List.filter_cons]
    by_cases h : d.batter = p
    · rw [if_pos (by simp [h]), List.foldl_cons, ih]
    · rw [if_neg (by simp [h]), batStep_not_faced p acc d h, ih]

theorem foldl_overs_flatten (p : String) (os : List Over) (acc : BatAcc) :
    os.foldl (fun acc o => o.deliveries.foldl (batStep p) acc) acc
      = ((os.map (fun o => o.deliveries)).flatten).foldl (batStep p) acc := by
  induction os generalizing acc with
  | nil => rfl
  | cons o t ih =>
    rw [List.foldl_cons, List.map_cons, List.flatten_cons, List.foldl_append, ih]

theorem extract_fold_faced (inn : Inning) (p : String) (range : Option (Nat × Nat)) :
    (selectedOvers range inn.overs).foldl
        (fun acc o => o.deliveries.foldl (batStep p) acc) batInit
      = (facedDeliveries p range inn.overs).foldl (batStep p) batInit := by
  rw [foldl_overs_flatten, facedDeliveries, foldl_batStep_filter]

theorem foldl_batStep_balls (p : String) (l : List Delivery) (acc : BatAcc) :
    (l.foldl (batStep p) acc).balls
      = acc.balls + (l.filter (fun d => d.batter == p)).length := by
  induction l generalizing acc with
  | nil => simp
  | cons d t ih =>
    rw [List.foldl_cons, ih, batStep_balls, List.filter_cons]
    by_cases h : d.batter = p
    all_goals simp [h]
    all_goals omega

/-- C9: for every innings walked by the batting extraction, the emitted
summary's `balls` equals the number of deliveries inside the resolved over
range whose `batter` field equals the player — with no legality check, so
wides and no-balls faced are counted. -/
theorem claim_C9_balls_counts_every_faced_delivery (inn : Inning) (p : String)
    (range : Option (Nat × Nat)) :
    ballsOf (extract_batting_stats inn p range)
      = (facedDeliveries p range inn.overs).length := by
  have hfold : ((selectedOvers range inn.overs).foldl
      (fun acc o => o.deliveries.foldl (batStep p) acc) batInit).balls
      = (facedDeliveries p range inn.overs).length := by
    rw [foldl_overs_flatten, foldl_batStep_balls]
    simp [facedDeliveries, batInit]
  simp only [extract_batting_stats]
  split
  · rw [ballsOf]
    exact hfold
  · rw [ballsOf]
    omega

theorem batStep_four (p : String) (d : Delivery) (hb : d.batter = p)
    (hr : to_int d.runs.batter 0 = 4)
    (hw : ∀ w ∈ d.wickets, w.player_out ≠ p) :
    batStep p batInit d = bsFour := by
  have hfind : d.wickets.find? (fun w => w.player_out == p) = Option.none := by
    rw [List.find?_eq_none]
    intro w hwmem
    simp [hw w hwmem]
  simp only [batStep, if_pos hb, hr, batWicket, hfind]
  norm_num [batInit, bsFour]

theorem calc_bsFour_report :
    (calculate_batting_stats [bsFour]).balls = 1
    ∧ (calculate_batting_stats [bsFour]).runs = 4
    ∧ (calculate_batting_stats [bsFour]).fours = 1
    ∧ (calculate_batting_stats [bsFour]).average = 4
    ∧ (calculate_batting_stats [bsFour]).strike_rate = 400 := by
  have h4 : pyRound 2 (4 : Rat) = 4 := by
    have := pyRound_intCast 2 4
    norm_num at this
    exact this
  have h400 : pyRound 2 (400 : Rat) = 400 := by
    have := pyRound_intCast 2 400
    norm_num at this
    exact this
  refine ⟨?_, ?_, ?_, ?_, ?_⟩ <;>
    simp only [calculate_batting_stats, bsFour] <;>
    norm_num [h4, h400]

/-- C3: a player whose filtered matches contain exactly one faced delivery,
worth 4 batter runs, with no dismissal of the player, extracts to the
summary `balls=1, runs=4, fours=1, not out`, and the aggregated batting
report over that summary has `balls=1, runs=4, fours=1, average=4` (the
not-out sentinel: average equals raw runs when the dismissal count is 0) and
`strike_rate=400` (runs/balls×100). -/
theorem claim_C3_single_four_roundtrip (inn : Inning) (p : String) (d : Delivery)
    (hf : facedDeliveries p Option.none inn.overs = [d])
    (hr : to_int d.runs.batter 0 = 4)
    (hw : ∀ w ∈ d.wickets, w.player_out ≠ p) :
    extract_batting_stats inn p Option.none = some bsFour
    ∧ (calculate_batting_stats [bsFour]).balls = 1
    ∧ (calculate_batting_stats [bsFour]).runs = 4
    ∧ (calculate_batting_stats [bsFour]).fours = 1
    ∧ (calculate_batting_stats [bsFour]).average = 4
    ∧ (calculate_batting_stats [bsFour]).strike_rate = 400 := by
  have hd_mem : d ∈ facedDeliveries p Option.none inn.overs := by
    rw [hf]
    exact List.mem_cons_self d []
  have hb : d.batter = p := by
    rw [facedDeliveries] at hd_mem
    have := (List.mem_filter.mp hd_mem).2
    simpa using this
  have hext : extract_batting_stats inn p Option.none = some bsFour := by
    have hfold := extract_fold_faced inn p Option.none
    rw [hf] at hfold
    simp only [List.foldl_cons, List.foldl_nil] at hfold
    rw [batStep_four p d hb hr hw] at hfold
    simp only [extract_batting_stats]
    rw [hfold]
    rfl
  exact ⟨hext, calc_bsFour_report.1, calc_bsFour_report.2.1, calc_bsFour_report.2.2.1,
    calc_bsFour_report.2.2.2.1, calc_bsFour_report.2.2.2.2⟩

/-- Witness for C3: the concrete one-delivery innings. -/
theorem claim_C3_witness :
    extract_batting_stats fourInning "P" Option.none = some bsFour
    ∧ (calculate_batting_stats [bsFour]).average = 4
    ∧ (calculate_batting_stats [bsFour]).strike_rate = 400 := by
  have h := claim_C3_single_four_roundtrip fourInning "P" fourDelivery rfl rfl
    (by intro w hw; simp [fourDelivery] at hw)
  exact ⟨h.1, h.2.2.2.2.1, h.2.2.2.2.2⟩

/-! ### Phase resolver lemmas -/

theorem t20_map_odi_none (p : String) (r : Nat × Nat) (h : t20_map p = some r) :
    odi_map p = Option.none := by
  rw [t20_map] at h
  split_ifs at h with h1 h2 h3 h4
  · subst h1; rfl
  · subst h2; rfl
  · subst h3; rfl
  · subst h4; rfl

theorem odi_map_t20_none (p : String) (r : Nat × Nat) (h : odi_map p = some r) :
    t20_map p = Option.none := by
  rw [odi_map] at h
  split_ifs at h with h1 h2 h3 h4 h5
  · subst h1; rfl
  · subst h2; rfl
  · subst h3; rfl
  · subst h4; rfl
  · subst h5; rfl

theorem odi_ranges_exclude_51 (p : String) (r : Nat × Nat) (h : odi_map p = some r) :
    overInRange (some r) 51 = false := by
  rw [odi_map] at h
  split_ifs at h with h1 h2 h3 h4 h5 <;>
    (injection h with h'; subst h'; rfl)

/-- C4: the phase resolver maps each canonical phase key to its inclusive
over range when the format agrees (`None` format counts as agreement), so
over index 6 lies in `t20_1_6`'s range, 7 in `t20_7_12`'s, 21 in
`odi_21_30`'s, and 51 in no ODI range; the per-over bucket map of phase
analysis agrees on those boundary cases; whenever the requested key's format
prefix disagrees with the known format the resolver yields no restriction
(`Option.none`), and extraction treats no restriction as "walk every over",
never as zero overs. -/
theorem claim_C4_phase_resolver_and_buckets :
    (∀ (mi : Option MatchInfo) (f : Filters) (p : String) (r : Nat × Nat),
      f.phase = some p → t20_map p = some r →
      (effective_format mi f = Option.none ∨ effective_format mi f = some "T20") →
      resolve_phase_over_range mi (some f) = some r)
    ∧ (∀ (mi : Option MatchInfo) (f : Filters) (p : String) (r : Nat × Nat),
      f.phase = some p → odi_map p = some r →
      (effective_format mi f = Option.none ∨ effective_format mi f = some "ODI" ∨
        effective_format mi f = some "ODM") →
      resolve_phase_over_range mi (some f) = some r)
    ∧ (∀ (mi : Option MatchInfo) (f : Filters) (p : String) (r : Nat × Nat) (fmt : String),
      f.phase = some p → t20_map p = some r → effective_format mi f = some fmt →
      fmt ≠ "T20" → resolve_phase_over_range mi (some f) = Option.none)
    ∧ (∀ (mi : Option MatchInfo) (f : Filters) (p : String) (r : Nat × Nat) (fmt : String),
      f.phase = some p → odi_map p = some r → effective_format mi f = some fmt →
      fmt ≠ "ODI" → fmt ≠ "ODM" → resolve_phase_over_range mi (some f) = Option.none)
    ∧ t20_map "t20_1_6" = some (1, 6) ∧ overInRange (some (1, 6)) 6 = true
    ∧ t20_map "t20_7_12" = some (7, 12) ∧ overInRange (some (7, 12)) 7 = true
    ∧ odi_map "odi_21_30" = some (21, 30) ∧ overInRange (some (21, 30)) 21 = true
    ∧ (∀ (p : String) (r : Nat × Nat), odi_map p = some r → overInRange (some r) 51 = false)
    ∧ phase_bucket "T20" 6 = some "phase1"
    ∧ phase_bucket "T20" 7 = some "phase2"
    ∧ phase_bucket "ODI" 21 = some "phase3"
    ∧ phase_bucket "ODI" 51 = Option.none
    ∧ (∀ idx : Nat, overInRange Option.none idx = true)
    ∧ (∀ overs : List Over, selectedOvers Option.none overs = overs) := by
  refine ⟨?_, ?_, ?_, ?_, rfl, rfl, rfl, rfl, rfl, rfl, odi_ranges_exclude_51,
    rfl, rfl, rfl, rfl, fun idx => rfl, ?_⟩
  · intro mi f p r hp ht hfmt
    rcases hfmt with hfmt | hfmt <;>
      simp [resolve_phase_over_range, hp, hfmt, ht]
  · intro mi f p r hp ho hfmt
    have ht : t20_map p = Option.none := odi_map_t20_none p r ho
    rcases hfmt with hfmt | hfmt | hfmt <;>
      simp [resolve_phase_over_range, hp, hfmt, ht, ho]
  · intro mi f p r fmt hp ht hfmt hne
    have ho : odi_map p = Option.none := t20_map_odi_none p r ht
    simp [resolve_phase_over_range, hp, hfmt, ht, ho, hne]
  · intro mi f p r fmt hp ho hfmt hne1 hne2
    have ht : t20_map p = Option.none := odi_map_t20_none p r ho
    simp [resolve_phase_over_range, hp, hfmt, ht, ho, hne1, hne2]
  · intro overs
    rw [selectedOvers]
    have hfil : overs.enum.filter (fun io => overInRange Option.none (io.1 + 1))
        = overs.enum := by
      apply List.filter_eq_self.mpr
      intro a _
      rfl
    rw [hfil]
    exact List.enum_map_snd overs

/-- Witness for C4: the resolver at the concrete phase key `t20_1_6` with
matching and with mismatching formats. -/
theorem claim_C4_witness :
    resolve_phase_over_range Option.none
      (some { noFilters with phase := some "t20_1_6", format := some "T20" }) = some (1, 6)
    ∧ resolve_phase_over_range Option.none
      (some { noFilters with phase := some "t20_1_6", format := some "Test" }) = Option.none
    ∧ resolve_phase_over_range Option.none
      (some { noFilters with phase := some "odi_21_30", format := some "ODI" }) = some (21, 30) := by
  refine ⟨?_, ?_, ?_⟩
  · exact claim_C4_phase_resolver_and_buckets.1 Option.none _ "t20_1_6" (1, 6) rfl rfl
      (Or.inr rfl)
  · exact claim_C4_phase_resolver_and_buckets.2.2.1 Option.none _ "t20_1_6" (1, 6) "Test"
      rfl rfl rfl (by decide)
  · exact claim_C4_phase_resolver_and_buckets.2.1 Option.none _ "odi_21_30" (21, 30) rfl rfl
      (Or.inr (Or.inl rfl))

/-! ### Filter engine: empty dates -/

/-- C10: a document whose info block has a missing or empty `dates` sequence
is never excluded by the years filter or by the `start_date`/`end_date`
range filter — its passage through `filter_matches` is the same as with
those predicates removed, while all other predicates still apply. -/
theorem claim_C10_empty_dates_immune_to_date_filters (f : Filters) (m : MatchDoc)
    (hd : m.info.dates = []) :
    matchPasses f m
      = matchPasses
          { f with years := Option.none, start_date := Option.none, end_date := Option.none }
          m := by
  have hy1 : yearsOk f m = true := by
    rw [yearsOk]
    cases f.years with
    | none => rfl
    | some ys => simp [hd]
  have hdr1 : dateRangeOk f m = true := by
    rw [dateRangeOk]
    cases hs : f.start_date with
    | none =>
      cases he : f.end_date with
      | none => rfl
      | some e => simp [hd]
    | some s => simp [hd]
  rw [matchPasses, matchPasses, hy1, hdr1]
  rw [show yearsOk
    { f with years := Option.none, start_date := Option.none, end_date := Option.none } m
    = true from rfl]
  rw [show dateRangeOk
    { f with years := Option.none, start_date := Option.none, end_date := Option.none } m
    = true from rfl]
  rfl

/-- Witness for C10: the concrete empty-dates document passes a years +
date-range filter set. -/
theorem claim_C10_witness : matchPasses yearsFilter noDatesDoc = true :=
  (claim_C10_empty_dates_immune_to_date_filters yearsFilter noDatesDoc rfl).trans (by decide)

/-! ### Bowling extraction lemmas -/

theorem extrasUpdate_wickets (acc : BowlAcc) (e : Option ExtrasDetail) :
    (extrasUpdate acc e).wickets = acc.wickets := by
  cases e with
  | none => rfl
  | some ed =>
    rw [extrasUpdate]
    cases ed.wides <;> cases ed.noballs <;> rfl

theorem extrasUpdate_balls (acc : BowlAcc) (e : Option ExtrasDetail) :
    (extrasUpdate acc e).balls = acc.balls := by
  cases e with
  | none => rfl
  | some ed =>
    rw [extrasUpdate]
    cases ed.wides <;> cases ed.noballs <;> rfl

theorem boundaryUpdate_wickets (acc : BowlAcc) (br ex : Int) :
    (boundaryUpdate acc br ex).wickets = acc.wickets := by
  rw [boundaryUpdate]
  split_ifs <;> rfl

theorem boundaryUpdate_balls (acc : BowlAcc) (br ex : Int) :
    (boundaryUpdate acc br ex).balls = acc.balls := by
  rw [boundaryUpdate]
  split_ifs <;> rfl

theorem bowlWickets_wickets (ws : List Wicket) (acc : BowlAcc) :
    (bowlWickets acc ws).wickets
      = acc.wickets + (ws.filter (fun w => decide (w.kind ∉ excludedKinds))).length := by
  induction ws generalizing acc with
  | nil => simp [bowlWickets]
  | cons w t ih =>
    by_cases h : w.kind ∉ excludedKinds
    · have hstep : bowlWickets acc (w :: t)
          = bowlWickets { acc with
              wickets := acc.wickets + 1
              wicket_types := acc.wicket_types ++ [w.kind] } t := by
        rw [bowlWickets, List.foldl_cons, if_pos h]
        rfl
      rw [hstep, ih, List.filter_cons, if_pos (by simpa using h)]
      simp only [List.length_cons]
      omega
    · have hstep : bowlWickets acc (w :: t) = bowlWickets acc t := by
        rw [bowlWickets, List.foldl_cons, if_neg h]
        rfl
      rw [hstep, ih, List.filter_cons, if_neg (by simpa using h)]

theorem bowlWickets_balls (ws : List Wicket) (acc : BowlAcc) :
    (bowlWickets acc ws).balls = acc.balls := by
  induction ws generalizing acc with
  | nil => rfl
  | cons w t ih =>
    by_cases h : w.kind ∉ excludedKinds
    · have hstep : bowlWickets acc (w :: t)
          = bowlWickets { acc with
              wickets := acc.wickets + 1
              wicket_types := acc.wicket_types ++ [w.kind] } t := by
        rw [bowlWickets, List.foldl_cons, if_pos h]
        rfl
      rw [hstep, ih]
    · have hstep : bowlWickets acc (w :: t) = bowlWickets acc t := by
        rw [bowlWickets, List.foldl_cons, if_neg h]
        rfl
      rw [hstep, ih]

theorem bowlStep_wickets (p : String) (st : OverState) (d : Delivery) :
    ((bowlStep p st d).acc).wickets
      = st.acc.wickets + (if d.bowler = p then creditedWickets d else 0) := by
  by_cases h : d.bowler = p
  · simp only [bowlStep, if_pos h, creditedWickets]
    rw [bowlWickets_wickets, boundaryUpdate_wickets]
    simp only [extrasUpdate_wickets]
  · simp [bowlStep, h]

theorem bowlStep_balls (p : String) (st : OverState) (d : Delivery) :
    ((bowlStep p st d).acc).balls
      = st.acc.balls + (if d.bowler = p then 1 else 0) := by
  by_cases h : d.bowler = p
  · simp only [bowlStep, if_pos h]
    rw [bowlWickets_balls, boundaryUpdate_balls]
    simp only [extrasUpdate_balls]
  · simp [bowlStep, h]

theorem foldl_bowlStep_wickets (p : String) (l : List Delivery) (st : OverState) :
    ((l.foldl (bowlStep p) st).acc).wickets
      = st.acc.wickets + ((l.filter (fun d => d.bowler == p)).map creditedWickets).sum := by
  induction l generalizing st with
  | nil => simp
  | cons d t ih =>
    rw [List.foldl_cons, ih, bowlStep_wickets, List.filter_cons]
    by_cases h : d.bowler = p
    · rw [if_pos h, if_pos (show (d.bowler == p) = true by simpa using h), List.map_cons,
        List.sum_cons]
      omega
    · rw [if_neg h, if_neg (show ¬ ((d.bowler == p) = true) by simpa using h)]
      omega

theorem foldl_bowlStep_balls (p : String) (l : List Delivery) (st : OverState) :
    ((l.foldl (bowlStep p) st).acc).balls
      = st.acc.balls + (l.filter (fun d => d.bowler == p)).length := by
  induction l generalizing st with
  | nil => simp
  | cons d t ih =>
    rw [List.foldl_cons, ih, bowlStep_balls, List.filter_cons]
    by_cases h : d.bowler = p
    · rw [if_pos h, if_pos (show (d.bowler == p) = true by simpa using h), List.length_cons]
      omega
    · rw [if_neg h, if_neg (show ¬ ((d.bowler == p) = true) by simpa using h)]
      omega

theorem bowlOver_wickets (p : String) (acc : BowlAcc) (o : Over) :
    (bowlOver p acc o).wickets
      = acc.wickets + ((o.deliveries.filter (fun d => d.bowler == p)).map creditedWickets).sum := by
  rw [bowlOver]
  split
  · show ((o.deliveries.foldl (bowlStep p) ⟨acc, 0, 0⟩).acc).wickets = _
    exact foldl_bowlStep_wickets p o.deliveries ⟨acc, 0, 0⟩
  · exact foldl_bowlStep_wickets p o.deliveries ⟨acc, 0, 0⟩

theorem bowlOver_balls (p : String) (acc : BowlAcc) (o : Over) :
    (bowlOver p acc o).balls
      = acc.balls + (o.deliveries.filter (fun d => d.bowler == p)).length := by
  rw [bowlOver]
  split
  · show ((o.deliveries.foldl (bowlStep p) ⟨acc, 0, 0⟩).acc).balls = _
    exact foldl_bowlStep_balls p o.deliveries ⟨acc, 0, 0⟩
  · exact foldl_bowlStep_balls p o.deliveries ⟨acc, 0, 0⟩

theorem foldl_bowlOver_wickets (p : String) (os : List Over) (acc : BowlAcc) :
    (os.foldl (bowlOver p) acc).wickets
      = acc.wickets
        + ((((os.map (fun o => o.deliveries)).flatten).filter (fun d => d.bowler == p)).map
            creditedWickets).sum := by
  induction os generalizing acc with
  | nil => simp
  | cons o t ih =>
    rw [List.foldl_cons, ih, bowlOver_wickets, List.map_cons, List.flatten_cons,
      List.filter_append, List.map_append, List.sum_append]
    omega

theorem foldl_bowlOver_balls (p : String) (os : List Over) (acc : BowlAcc) :
    (os.foldl (bowlOver p) acc).balls
      = acc.balls
        + (((os.map (fun o => o.deliveries)).flatten).filter (fun d => d.bowler == p)).length := by
  induction os generalizing acc with
  | nil => simp
  | cons o t ih =>
    rw [List.foldl_cons, ih, bowlOver_balls, List.map_cons, List.flatten_cons,
      List.filter_append, List.length_append]
    omega

theorem rivalry_fold_wickets (bat : String) (hbat : bat ≠ "") (ws : List Wicket)
    (m : String → Nat) (b : String) :
    (ws.foldl (fun m w =>
      if w.kind ∉ excludedKinds ∧ w.player_out ≠ "" ∧ w.player_out = bat then
        fun b' => if b' = bat then m b' + 1 else m b'
      else m) m) b
      = m b + (if b = bat then
          (ws.filter (fun w => decide (w.kind ∉ excludedKinds) && (w.player_out == bat))).length
        else 0) := by
  induction ws generalizing m with
  | nil => simp
  | cons w t ih =>
    rw [List.foldl_cons, ih, List.filter_cons]
    by_cases hq : w.kind ∉ excludedKinds ∧ w.player_out = bat
    · rw [if_pos ⟨hq.1, hq.2 ▸ hbat, hq.2⟩,
        if_pos (show (decide (w.kind ∉ excludedKinds) && (w.player_out == bat)) = true by
          simp [hq.1, hq.2])]
      by_cases hb : b = bat
      · simp only [if_pos hb, List.length_cons]
        omega
      · simp only [if_neg hb]
    · rw [if_neg (fun hc => hq ⟨hc.1, hc.2.2⟩),
        if_neg (show ¬ ((decide (w.kind ∉ excludedKinds) && (w.player_out == bat)) = true) by
          simpa using hq)]

/-- C5 (amended): in the per-innings bowling extraction, wickets credited to
the bowler are exactly the wicket entries with a non-excluded kind on the
player's deliveries — each such entry always increments the count and the
kinds "run out", "retired hurt", "retired out" never do; in the rivalry
analysis the excluded kinds are likewise never credited, but a non-excluded
kind is credited against the batter only when the wicket's `player_out` is
non-empty and equals the delivery's batter. -/
theorem claim_C5_bowler_wicket_crediting :
    (∀ (inn : Inning) (p : String) (range : Option (Nat × Nat)),
      wicketsOf (extract_bowling_stats inn p range)
        = ((bowledDeliveries p range inn.overs).map creditedWickets).sum)
    ∧ (∀ (d : Delivery),
      creditedWickets d
        = (d.wickets.filter (fun w => decide (w.kind ∉ excludedKinds))).length)
    ∧ (∀ (p : String) (m : String → Nat) (d : Delivery) (b : String),
      rivalryBowlWickets p m d b
        = m b + (if d.bowler = p ∧ d.batter = b ∧ b ≠ "" then
            (d.wickets.filter (fun w =>
              decide (w.kind ∉ excludedKinds) && (w.player_out == d.batter))).length
          else 0)) := by
  refine ⟨?_, fun d => rfl, ?_⟩
  · intro inn p range
    have hw : ((selectedOvers range inn.overs).foldl (bowlOver p) bowlInit).wickets
        = ((bowledDeliveries p range inn.overs).map creditedWickets).sum := by
      rw [foldl_bowlOver_wickets, bowledDeliveries]
      simp [bowlInit]
    simp only [extract_bowling_stats]
    split
    · rw [wicketsOf]
      exact hw
    · rw [wicketsOf]
      have hb : ((selectedOvers range inn.overs).foldl (bowlOver p) bowlInit).balls
          = (bowledDeliveries p range inn.overs).length := by
        rw [foldl_bowlOver_balls, bowledDeliveries]
        simp [bowlInit]
      have hlen : (bowledDeliveries p range inn.overs).length = 0 := by omega
      rw [List.length_eq_zero] at hlen
      rw [hlen]
      rfl
  · intro p m d b
    by_cases hg : d.bowler = p ∧ d.batter ≠ ""
    · rw [rivalryBowlWickets, if_pos hg, rivalry_fold_wickets d.batter hg.2 d.wickets m b]
      by_cases hb : b = d.batter
      · rw [if_pos hb, if_pos ⟨hg.1, hb.symm, fun hbe => hg.2 (hb.symm.trans hbe)⟩]
      · rw [if_neg hb, if_neg (fun hc => hb hc.2.1.symm)]
    · rw [rivalryBowlWickets, if_neg hg,
        if_neg (fun hc => hg ⟨hc.1, fun he => hc.2.2 (hc.2.1.symm.trans he)⟩)]
      omega

/-- Counterexample for C5 as stated: a wicket of the non-excluded kind
"caught" recorded on a delivery bowled by "P" whose `player_out` ("C") is
not the facing batter ("B") is credited by the per-innings extraction but
increments no rivalry tally, so in the rivalry aggregate a non-excluded
kind is not always credited. -/
theorem claim_C5_counterexample :
    ("caught" ∉ excludedKinds)
    ∧ strayWicketDelivery.bowler = "P"
    ∧ strayWicketDelivery.wickets = [⟨"C", "caught"⟩]
    ∧ creditedWickets strayWicketDelivery = 1
    ∧ rivalryBowlWickets "P" (fun _ => 0) strayWicketDelivery "B" = 0
    ∧ rivalryBowlWickets "P" (fun _ => 0) strayWicketDelivery "C" = 0 := by
  refine ⟨by decide, rfl, rfl, rfl, ?_, ?_⟩ <;> rfl

/-! ### Bowling aggregation: division safety -/

theorem pyRound_zero (n : Nat) : pyRound n 0 = 0 := by
  have := pyRound_intCast n 0
  norm_num at this
  exact this

/-- C7: over any list of per-innings bowling summaries the aggregation is a
total function; the bowling average is `runsConceded/wickets` (rounded to 2
places) when the total wicket count is positive and 0 when it is zero, and
the economy is `runsConceded/overs` (rounded) when the total overs figure is
positive and 0 when it is zero — no division error is possible. -/
theorem claim_C7_bowling_average_economy_zero_safe (l : List BowlAcc) :
    (sumWickets l = 0 → (calculate_bowling_stats l).average = 0)
    ∧ (sumOvers l = 0 → (calculate_bowling_stats l).economy = 0)
    ∧ (0 < sumWickets l →
        (calculate_bowling_stats l).average
          = pyRound 2 ((sumRunsConceded l : Rat) / (sumWickets l : Rat)))
    ∧ (0 < sumOvers l →
        (calculate_bowling_stats l).economy
          = pyRound 2 ((sumRunsConceded l : Rat) / sumOvers l)) := by
  by_cases hl : l.isEmpty
  · have h2 : l = [] := by
      cases l with
      | nil => rfl
      | cons a t => exact absurd hl (by simp)
    subst h2
    refine ⟨fun _ => rfl, fun _ => rfl, ?_, ?_⟩
    · intro hw
      exact absurd hw (by simp [sumWickets])
    · intro ho
      exact absurd ho (by simp [sumOvers])
  · refine ⟨?_, ?_, ?_, ?_⟩
    · intro h
      rw [calculate_bowling_stats, if_neg (by simpa using hl)]
      simp [h, pyRound_zero]
    · intro h
      rw [calculate_bowling_stats, if_neg (by simpa using hl)]
      simp [h, pyRound_zero]
    · intro h
      rw [calculate_bowling_stats, if_neg (by simpa using hl)]
      simp [h]
    · intro h
      rw [calculate_bowling_stats, if_neg (by simpa using hl)]
      simp [h]

/-- Witness for C7: the empty aggregate and a concrete 2-wicket spell. -/
theorem claim_C7_witness :
    (calculate_bowling_stats []).average = 0
    ∧ (calculate_bowling_stats []).economy = 0
    ∧ (calculate_bowling_stats [sampleSpell]).average
        = pyRound 2 ((sumRunsConceded [sampleSpell] : Rat) / (sumWickets [sampleSpell] : Rat))
    ∧ (calculate_bowling_stats [sampleSpell]).economy
        = pyRound 2 ((sumRunsConceded [sampleSpell] : Rat) / sumOvers [sampleSpell]) := by
  refine ⟨(claim_C7_bowling_average_economy_zero_safe []).1 rfl,
    (claim_C7_bowling_average_economy_zero_safe []).2.1 rfl,
    (claim_C7_bowling_average_economy_zero_safe [sampleSpell]).2.2.1 (by decide),
    (claim_C7_bowling_average_economy_zero_safe [sampleSpell]).2.2.2 ?_⟩
  show (0 : Rat) < sumOvers [sampleSpell]
  norm_num [sumOvers, sampleSpell]

/-! ### Loader second pass -/

/-- Counterexample for C6 as stated: if every key failed in the first pass
(`_ingested_keys` is empty), the residual list is forced to `[]` by the
truthiness guard and no second pass runs, so the failed key "k1" is never
attempted again. -/
theorem claim_C6_counterexample :
    compute_missing ["k1"] [] = []
    ∧ second_pass_runs (compute_missing ["k1"] []) = false
    ∧ "k1" ∉ ([] : List String) := by
  refine ⟨rfl, rfl, by decide⟩

/-- C6 (amended): whenever at least one key was successfully ingested in the
first pass, the second pass runs over exactly the enumerated keys that never
produced a successful ingest (and runs iff that residual set is nonempty),
with a worker pool of between 2 and 6 workers; when no key was ingested, the
residual list is empty and no second pass runs. -/
theorem claim_C6_second_pass_residual (keys ingested : List String) (hne : ingested ≠ []) :
    compute_missing keys ingested = keys.filter (fun k => !(ingested.contains k))
    ∧ (second_pass_runs (compute_missing keys ingested) = true
        ↔ keys.filter (fun k => !(ingested.contains k)) ≠ [])
    ∧ (∀ missing : List String, missing ≠ [] →
        2 ≤ second_pass_workers missing ∧ second_pass_workers missing ≤ 6) := by
  have h1 : compute_missing keys ingested
      = keys.filter (fun k => !(ingested.contains k)) := by
    rw [compute_missing]
    cases keys with
    | nil => simp
    | cons a t =>
      rw [if_pos]
      simp [hne]
  refine ⟨h1, ?_, ?_⟩
  · rw [second_pass_runs, h1]
    simp
  · intro missing _
    simp only [second_pass_workers]
    omega

/-- Witness for C6: keys `["a", "b"]` with only "a" ingested leave exactly
`["b"]` for the second pass, with a pool of 2 to 6 workers. -/
theorem claim_C6_witness :
    compute_missing ["a", "b"] ["a"] = ["b"]
    ∧ 2 ≤ second_pass_workers ["b"] ∧ second_pass_workers ["b"] ≤ 6 := by
  have h := claim_C6_second_pass_residual ["a", "b"] ["a"] (by decide)
  refine ⟨?_, (h.2.2 ["b"] (by decide)).1, (h.2.2 ["b"] (by decide)).2⟩
  rw [h.1]
  rfl

/-! ### Capped loader invariants -/

theorem loader_invariant (W cap n : Nat) (s : LoaderState)
    (h : LoaderReachable W cap n s) : s.store + s.inflight ≤ cap + W := by
  induction h with
  | refl => simp [loaderInit]
  | tail _ hstep ih =>
    cases hstep with
    | submit hsub =>
      cases hsub with
      | mk p i st hst hi hp =>
        simp only at ih ⊢
        omega
    | finish_ok p i st hi =>
      simp only at ih ⊢
      omega
    | finish_fail p i st hi =>
      simp only at ih ⊢
      omega

/-- C1: modelled from the spec (the capped loader is not under `src/`): in
every reachable state of a capped load run with pool size `W` and cap `cap`,
the store size exceeds the cap by at most `W`, and once the store has
reached the cap no submit transition is enabled. -/
theorem claim_C1_unique_cap_bounded_overshoot (W cap n : Nat) (s : LoaderState)
    (h : LoaderReachable W cap n s) :
    s.store ≤ cap + W ∧ (cap ≤ s.store → ∀ t, ¬ LoaderSubmit W cap s t) := by
  constructor
  · have := loader_invariant W cap n s h
    omega
  · intro hcap t hsub
    cases hsub with
    | mk p i st hst hi hp =>
      have hcap' : cap ≤ st := hcap
      omega

/-- Witness for C1: a run over 5 keys with pool 2 and cap 3, at the state
reached after one submission and one successful ingest. -/
theorem claim_C1_witness :
    (⟨4, 0, 1⟩ : LoaderState).store ≤ 3 + 2
    ∧ (3 ≤ (⟨4, 0, 1⟩ : LoaderState).store →
        ∀ t, ¬ LoaderSubmit 2 3 (⟨4, 0, 1⟩ : LoaderState) t) := by
  have hreach : LoaderReachable 2 3 5 ⟨4, 0, 1⟩ := by
    have h1 : LoaderStep 2 3 (loaderInit 5) ⟨4, 1, 0⟩ :=
      LoaderStep.submit (LoaderSubmit.mk 5 0 0 (by omega) (by omega) (by omega))
    have h2 : LoaderStep 2 3 ⟨4, 1, 0⟩ ⟨4, 0, 1⟩ := LoaderStep.finish_ok 4 1 0 (by omega)
    exact Relation.ReflTransGen.tail (Relation.ReflTransGen.tail
      Relation.ReflTransGen.refl h1) h2
  exact claim_C1_unique_cap_bounded_overshoot 2 3 5 ⟨4, 0, 1⟩ hreach

/-! ### Query-time error dispatch -/

theorem not_in_players_no_matches (store : List MatchDoc) (p : String) (f : Filters)
    (h : (allPlayersOf store).contains p = false) :
    player_match_list store p f = [] := by
  rw [player_match_list, List.filter_eq_nil_iff]
  intro m hm
  have hms : m ∈ store := List.mem_of_mem_filter hm
  cases hpt : playerTeam m p with
  | none => simp
  | some t =>
    exfalso
    rw [playerTeam, Option.map_eq_some'] at hpt
    obtain ⟨tp, hfind, -⟩ := hpt
    have hmem : tp ∈ m.info.players := List.mem_of_find?_eq_some hfind
    have hcont : tp.2.contains p = true := by
      have := List.find?_some hfind
      simpa using this
    have : p ∈ allPlayersOf store := by
      rw [allPlayersOf, List.mem_flatMap]
      refine ⟨m, hms, ?_⟩
      rw [List.mem_flatMap]
      exact ⟨tp, hmem, List.mem_of_elem_eq_true hcont⟩
    have hcc : (allPlayersOf store).contains p = true := List.elem_eq_true_of_mem this
    rw [hcc] at h
    exact Bool.noConfusion h

theorem player_msgs_distinct (p : String) : playerNotFoundMsg p ≠ playerNoMatchesMsg p := by
  intro h
  have h1 : (playerNotFoundMsg p).data.head? = some 'P' := rfl
  have h2 : (playerNoMatchesMsg p).data.head? = some 'N' := rfl
  rw [h, h2] at h1
  exact absurd h1 (by decide)

/-- C8 (amended): the player stats endpoint distinguishes the two failure
cases — an unknown player yields the "not found" error, while a known
player with no matches under the filters yields a distinct "no matches"
error — and both are returned as data by total dispatch functions; the team
and venue endpoints return one and the same structured message
("No data found for ...") in both cases, without distinguishing them. -/
theorem claim_C8_query_error_dispatch :
    (∀ (store : List MatchDoc) (p : String) (f : Filters),
      pyStrip p ≠ "" → (allPlayersOf store).contains p = false →
      get_player_stats_error store p f = some (playerNotFoundMsg p))
    ∧ (∀ (store : List MatchDoc) (p : String) (f : Filters),
      pyStrip p ≠ "" → (allPlayersOf store).contains p = true →
      player_match_list store p f = [] →
      get_player_stats_error store p f = some (playerNoMatchesMsg p))
    ∧ (∀ p : String, playerNotFoundMsg p ≠ playerNoMatchesMsg p)
    ∧ (∀ (store store' : List MatchDoc) (t : String) (f f' : Filters),
      team_match_list store t f = [] → team_match_list store' t f' = [] →
      get_team_stats_error store t f = get_team_stats_error store' t f'
        ∧ get_team_stats_error store t f = some (teamNoDataMsg t))
    ∧ (∀ (store store' : List MatchDoc) (v : String) (f f' : Filters),
      venue_match_list store v f = [] → venue_match_list store' v f' = [] →
      get_venue_stats_error store v f = get_venue_stats_error store' v f'
        ∧ get_venue_stats_error store v f = some (venueNoDataMsg v)) := by
  refine ⟨?_, ?_, player_msgs_distinct, ?_, ?_⟩
  · intro store p f hp hc
    rw [get_player_stats_error, if_neg hp,
      if_pos (by simp [not_in_players_no_matches store p f hc]),
      if_pos (by simpa using hc)]
  · intro store p f hp hc hempty
    rw [get_player_stats_error, if_neg hp, if_pos (by simp [hempty]),
      if_neg (by simpa using hc)]
  · intro store store' t f f' h h'
    rw [get_team_stats_error, get_team_stats_error, if_pos (by simp [h]),
      if_pos (by simp [h'])]
    exact ⟨rfl, rfl⟩
  · intro store store' v f f' h h'
    rw [get_venue_stats_error, get_venue_stats_error, if_pos (by simp [h]),
      if_pos (by simp [h'])]
    exact ⟨rfl, rfl⟩

/-- Counterexample for C8 as stated: team "A" exists in the store but has no
matches under a 2022 filter, yet the endpoint returns exactly the same
error it returns when "A" is entirely absent from the store — the two cases
are not distinguished, and the message is not of the "not found" form. -/
theorem claim_C8_counterexample :
    (allTeamsOf [teamDoc2023]).contains "A" = true
    ∧ (allTeamsOf []).contains "A" = false
    ∧ get_team_stats_error [teamDoc2023] "A" years2022Filter = some (teamNoDataMsg "A")
    ∧ get_team_stats_error [] "A" years2022Filter = some (teamNoDataMsg "A")
    ∧ get_team_stats_error [teamDoc2023] "A" years2022Filter
        = get_team_stats_error [] "A" years2022Filter := by
  refine ⟨by decide, by decide, by decide, by decide, by decide⟩

/-- Witness for C8: the player dispatch at a concrete store. -/
theorem claim_C8_witness :
    get_player_stats_error [] "Q" noFilters = some (playerNotFoundMsg "Q")
    ∧ get_player_stats_error [teamDoc2023] "P1" years2022Filter
        = some (playerNoMatchesMsg "P1")
    ∧ get_team_stats_error [teamDoc2023] "A" years2022Filter
        = get_team_stats_error [] "A" noFilters := by
  refine ⟨claim_C8_query_error_dispatch.1 [] "Q" noFilters (by decide) (by decide),
    claim_C8_query_error_dispatch.2.1 [teamDoc2023] "P1" years2022Filter (by decide)
      (by decide) (by decide),
    (claim_C8_query_error_dispatch.2.2.2.1 [teamDoc2023] [] "A" years2022Filter noFilters
      (by decide) (by decide)).1⟩

end Cricket
